import Mathlib

/-!
Shallow embedding of the product-discovery pipeline of `cherish-backend`
(`src/routes/specific-gift-ideas.ts`) and of the in-memory job registry
(`src/services/job-tracker.ts`).  External effects (database, search and
metadata providers, the LLM completion capability, notifications) are
modelled as explicit oracle inputs; a rejected promise / thrown exception
is an `Except.error` carrying the error message.
-/

deriving instance DecidableEq for Except

namespace Cherish

/-- `SearchResult` from `specific-gift-ideas.ts` (lines 12-17). -/
structure SearchResult where
  title : String
  url : String
  publishedDate : Option String := none
  author : Option String := none
deriving Repr, DecidableEq

/-- `Price` (lines 19-23).  JS numbers carrying money amounts are modelled
as integers of cents-agnostic magnitude; no claim depends on their arithmetic. -/
structure Price where
  amount : Option Int
  currency : Option String
  formatted : Option String := none
deriving Repr, DecidableEq

/-- `ProductMetadata` (lines 25-36). -/
structure ProductMetadata where
  name : String
  price : Price
  imageUrls : List String
  description : String
  productUrl : String
  availability : Option String := none
  brand : Option String := none
  stars : Option Int := none
  reviewsCount : Option Int := none
  asin : Option String := none
deriving Repr, DecidableEq

/-- `enum SearchProvider` (lines 38-42). -/
inductive SearchProvider where
  | exa
  | openai_web_search
  | parallel_web
deriving Repr, DecidableEq

/-- `enum MetadataProvider` (lines 44-48). -/
inductive MetadataProvider where
  | exa_contents
  | apify_amazon
  | parallel_web
deriving Repr, DecidableEq

/-- `SearchServiceResult` (lines 50-53); the failure branch of the search
orchestrator additionally attaches an `error` field (line 426), modelled as
an `Option` that is `none` on the success branch. -/
structure SearchServiceResult where
  source : SearchProvider
  results : List SearchResult
  error : Option String := none
deriving Repr, DecidableEq

/-- `MetadataServiceResult` (lines 55-58). -/
structure MetadataServiceResult where
  source : MetadataProvider
  metadata : ProductMetadata
deriving Repr, DecidableEq

/-- The `CONFIG` shape (lines 61-66). -/
structure Config where
  searchProviders : List SearchProvider
  metadataProviders : List MetadataProvider
  maxSearchResults : Nat
  useUrlRouting : Bool
deriving Repr, DecidableEq

/-- The literal `CONFIG` value of the source (lines 61-66):
`parallel_web` only, `useUrlRouting: false`. -/
def CONFIG : Config :=
  { searchProviders := [SearchProvider.parallel_web]
    metadataProviders := [MetadataProvider.parallel_web]
    maxSearchResults := 10
    useUrlRouting := false }

/-- Substring containment on character lists: does `s` contain `pat`
as a contiguous run?  Models JavaScript `String.prototype.includes`. -/
def charsContain (pat : List Char) : List Char → Bool
  | [] => pat.isEmpty
  | c :: rest => pat.isPrefixOf (c :: rest) || charsContain pat rest

/-- JavaScript `s.includes(pat)` on strings. -/
def strIncludes (s pat : String) : Bool :=
  charsContain pat.toList s.toList

/-- JavaScript `s.toLowerCase()`, modelled as per-character latin
lowercasing by structural recursion (URLs are ASCII here, and only the
letters of `"amazon"` matter to the predicate below). -/
def strToLower (s : String) : String :=
  String.mk (s.toList.map Char.toLower)

/-- `ApifyAmazonMetadataService.isAmazonUrl` (lines 168-171):
`url.toLowerCase().includes("amazon.com") || url.toLowerCase().includes("amazon.")`. -/
def isAmazonUrl (url : String) : Bool :=
  let urlLower := strToLower url
  strIncludes urlLower "amazon.com" || strIncludes urlLower "amazon."

/-- The body of the per-provider lambda of `searchProductOrchestrator`
(lines 413-430): try the provider's `search`, on success tag the results with
the provider, on a caught failure return an empty result list plus the error
message.  `call` is the oracle for the provider's `search(productName)`. -/
def searchEntry (call : SearchProvider → Except String (List SearchResult))
    (provider : SearchProvider) : SearchServiceResult :=
  match call provider with
  | Except.ok results => { source := provider, results := results, error := none }
  | Except.error e => { source := provider, results := [], error := some e }

/-- `searchProductOrchestrator` (lines 397-433): map the per-provider lambda
over the configured providers and await them all; `Promise.all` preserves
list order, so the result is the ordered list of entries. -/
def searchProductOrchestrator (providers : List SearchProvider)
    (call : SearchProvider → Except String (List SearchResult)) :
    List SearchServiceResult :=
  providers.map (searchEntry call)

/-- The error-sentinel `ProductMetadata` produced by every catch branch of
`extractMetadataOrchestrator` (lines 461-470, 483-492, 519-527): name
`"Error"`, null price fields, no images, the error message as description,
the input URL as `productUrl`. -/
def errorSentinel (url msg : String) : ProductMetadata :=
  { name := "Error"
    price := { amount := none, currency := none, formatted := none }
    imageUrls := []
    description := msg
    productUrl := url }

/-- `extractMetadataOrchestrator` (lines 435-532).  `call` is the oracle for
`«provider».extractMetadata(url)`.  With `cfg.useUrlRouting` the routed
branch runs: Amazon-looking URLs go to the Apify provider, everything else
to the Exa provider, and a failure of the chosen provider yields a single
sentinel tagged with that provider (lines 451-497).  Otherwise the fan-out
branch maps the per-provider try/catch over `providers` (lines 507-531). -/
def extractMetadataOrchestrator (url : String)
    (providers : List MetadataProvider) (cfg : Config)
    (call : MetadataProvider → Except String ProductMetadata) :
    List MetadataServiceResult :=
  let isAmazon := isAmazonUrl url
  if cfg.useUrlRouting then
    if isAmazon then
      match call MetadataProvider.apify_amazon with
      | Except.ok metadata =>
          [{ source := MetadataProvider.apify_amazon, metadata := metadata }]
      | Except.error e =>
          [{ source := MetadataProvider.apify_amazon, metadata := errorSentinel url e }]
    else
      match call MetadataProvider.exa_contents with
      | Except.ok metadata =>
          [{ source := MetadataProvider.exa_contents, metadata := metadata }]
      | Except.error e =>
          [{ source := MetadataProvider.exa_contents, metadata := errorSentinel url e }]
  else
    providers.map fun provider =>
      match call provider with
      | Except.ok metadata => { source := provider, metadata := metadata }
      | Except.error e => { source := provider, metadata := errorSentinel url e }

/-- The provider the routed branch selects, as a function of the URL alone
(lines 449-452, 474): Apify for Amazon-looking URLs, Exa otherwise. -/
def routeProvider (url : String) : MetadataProvider :=
  if isAmazonUrl url then MetadataProvider.apify_amazon
  else MetadataProvider.exa_contents

/-- Outcome of the completion call inside `extractProductNamesFromIdea`
(lines 609-638): the API call may reject (`threw`), the response content may
be missing (`noContent`, line 627: the function throws), `JSON.parse` may
throw (`unparseable`, line 635: the function returns `[]`), or a `products`
array is parsed (`parsed`; a JSON object without the key is `parsed []`,
line 634). -/
inductive NameLLMOutcome where
  | threw (msg : String)
  | noContent
  | unparseable
  | parsed (products : List String)
deriving Repr, DecidableEq

/-- `extractProductNamesFromIdea` (lines 539-647).  `searchOutcome` is the
oracle for `parallelClient.beta.search` (a missing/empty `results` field is
`ok []`, line 568); `llm` the oracle for the completion call.  Returns the
function's result (`error` = the exception it throws) paired with the number
of completion-capability invocations it performed. -/
def extractProductNamesFromIdea (count : Nat)
    (searchOutcome : Except String (List SearchResult))
    (llm : NameLLMOutcome) : Except String (List String) × Nat :=
  match searchOutcome with
  | Except.error e => (Except.error e, 0)
  | Except.ok results =>
    if results.length = 0 then (Except.ok [], 0)
    else
      match llm with
      | NameLLMOutcome.threw msg => (Except.error msg, 1)
      | NameLLMOutcome.noContent =>
          (Except.error "LLM failed to extract product names", 1)
      | NameLLMOutcome.unparseable => (Except.ok [], 1)
      | NameLLMOutcome.parsed products => (Except.ok (products.take count), 1)

/-- A search hit annotated with the product name it was found for
(line 742: `SearchResult & { productName: string }`). -/
structure AnnotatedHit where
  hit : SearchResult
  productName : String
deriving Repr, DecidableEq

/-- Outcome of the URL-selection completion call (lines 791-821), with the
same four-way shape as `NameLLMOutcome`; `parsedIdx` carries the index list
`parsed.indices || parsed.selected || []` (line 816). -/
inductive SelectLLMOutcome where
  | threw (msg : String)
  | noContent
  | unparseable
  | parsedIdx (indices : List Int)
deriving Repr, DecidableEq

/-- The URL-selection post-processing of `processProductGeneration`
(lines 767, 813-827).  `parseOutcome = none` is the `JSON.parse` catch branch
(lines 817-821): fall back to indices `1..topN`.  Then keep in-range 1-based
indices, take at most `topN`, and read off each selected hit's URL.  The
`none` arm of the lookup is unreachable because the filter bounds the
index. -/
def selectUrls (hits : List AnnotatedHit) (count : Nat)
    (parseOutcome : Option (List Int)) : List String :=
  let topN := min count hits.length
  let selectedIndices : List Int :=
    match parseOutcome with
    | some indices => indices
    | none => (List.range topN).map (fun i => Int.ofNat (i + 1))
  (((selectedIndices.filter fun idx =>
      decide (1 ≤ idx) && decide (idx ≤ (hits.length : Int))).take topN).map
    fun idx =>
      match hits[(idx - 1).toNat]? with
      | some h => h.hit.url
      | none => "")

/-- `JobStatus` of `job-tracker.ts` (line 4).  The spec's abstract state name
`running` is the code's literal `"in_progress"`. -/
inductive JobStatus where
  | pending
  | in_progress
  | completed
  | failed
deriving Repr, DecidableEq

/-- `Job<T>` of `job-tracker.ts` (lines 7-14); `createdAt`/`updatedAt` are
millisecond epoch timestamps (`Date.getTime()`). -/
structure Job (α : Type) where
  id : String
  status : JobStatus
  result : Option α := none
  error : Option String := none
  createdAt : Nat
  updatedAt : Nat
deriving Repr, DecidableEq

/-- `JobTracker.getJob` (lines 83-85) over the registry's map, modelled as a
list of jobs with distinct ids. -/
def getJob {α : Type} (jobs : List (Job α)) (jobId : String) : Option (Job α) :=
  jobs.find? fun j => j.id == jobId

/-- `JobTracker.cleanupOldJobs` (lines 109-128): delete every job whose age
`now - createdAt` strictly exceeds `maxAge`, keep the rest in place, and
return the kept jobs with the deleted count.  JS computes the age as a
possibly negative number; with truncated `Nat` subtraction a "future" job has
age `0`, which is not `> maxAge` — the same keep decision as in JS. -/
def cleanupOldJobs {α : Type} (now maxAge : Nat) (jobs : List (Job α)) :
    List (Job α) × Nat :=
  let kept := jobs.filter fun j => !decide (now - j.createdAt > maxAge)
  (kept, jobs.length - kept.length)

/-- The `general_gift_ideas` row fetched at lines 681-686; only `idea_text`
is read by the pipeline. -/
structure GeneralIdea where
  id : String
  ideaText : String
deriving Repr, DecidableEq

/-- The parameters of `processProductGeneration` (lines 655-660). -/
structure GenerationParams where
  userId : String
  personId : String
  generalGiftIdeaId : String
  count : Nat
deriving Repr, DecidableEq

/-- One row of the `specific_gift_ideas` insert batch (lines 887-902);
`event_id` is always null, `image_urls` is null when the extracted list is
empty (line 899). -/
structure GiftRow where
  userId : String
  personId : String
  eventId : Option String
  generalGiftIdeaId : String
  name : String
  description : String
  url : String
  priceAmount : Option Int
  priceCurrency : Option String
  imageUrls : Option (List String)
  sourceProvider : MetadataProvider
deriving Repr, DecidableEq

/-- The `result` payload of the completed-job update (lines 933-937). -/
structure JobResult where
  generalGiftIdea : GeneralIdea
  specificGifts : List GiftRow
  count : Nat
deriving Repr, DecidableEq

/-- One `jobTracker.updateJob(jobId, …)` payload issued by the pipeline
(lines 674, 931-938, 961-967). -/
structure JobUpdate where
  status : Option JobStatus := none
  result : Option JobResult := none
  error : Option String := none
deriving Repr, DecidableEq

/-- Oracles for every external effect `processProductGeneration` performs,
in program order: the gift-idea fetch (lines 681-689, `none` covers both a
query error and an absent row), the search and completion calls inside
`extractProductNamesFromIdea`, the per-name per-provider purchase-URL search
(lines 720-726), the URL-selection completion call (lines 791-821), the
per-URL per-provider metadata extraction (lines 845-852), the database
insert (lines 912-922) and the push notification (lines 941-955). -/
structure Env where
  fetchIdea : Option GeneralIdea
  nameSearch : Except String (List SearchResult)
  nameLLM : NameLLMOutcome
  urlSearch : String → SearchProvider → Except String (List SearchResult)
  selectLLM : SelectLLMOutcome
  metaCall : String → MetadataProvider → Except String ProductMetadata
  insertOutcome : Except String Unit
  notifyOutcome : Except String Unit

/-- What one pipeline run leaves behind: the ordered `updateJob` payloads it
issued and the database rows it persisted. -/
structure PipelineOutcome where
  updates : List JobUpdate
  persisted : List GiftRow
deriving Repr, DecidableEq

/-- The outer catch of `processProductGeneration` (lines 956-968): every
failure path has already issued the `in_progress` update (line 674) and ends
with a `failed` update carrying the thrown message; no row is persisted on
these paths (the insert either did not run or itself failed as one batch). -/
def failWith (msg : String) : PipelineOutcome :=
  { updates := [{ status := some JobStatus.in_progress },
                { status := some JobStatus.failed, error := some msg }]
    persisted := [] }

/-- Lines 887-902: build one insert row from a tagged metadata result. -/
def toGiftRow (params : GenerationParams) (mr : MetadataServiceResult) :
    GiftRow :=
  let meta := mr.metadata
  { userId := params.userId
    personId := params.personId
    eventId := none
    generalGiftIdeaId := params.generalGiftIdeaId
    name := meta.name
    description := meta.description
    url := meta.productUrl
    priceAmount := meta.price.amount
    priceCurrency := meta.price.currency
    imageUrls := if meta.imageUrls.length > 0 then some meta.imageUrls else none
    sourceProvider := mr.source }

/-- Steps 4-5 and the terminal updates of `processProductGeneration`
(lines 833-955), entered after URL selection with the parse outcome of the
selection completion.  Each selected URL's `extractMetadataOrchestrator`
call resolves (it catches its own failures), so `metadataResults[i]` is the
orchestrator's first entry (line 858) and the `catch → null` branch of
lines 859-867 never fires; `head?` is `none` only for an empty provider
list, which the fixed `CONFIG` rules out.  The filter `m !== null`
(line 874) therefore keeps every entry — error sentinels included.  A
notification failure after the `completed` update is swallowed
(lines 949-955) and alters neither updates nor rows. -/
def finishGeneration (params : GenerationParams) (env : Env)
    (generalIdea : GeneralIdea) (allSearchResults : List AnnotatedHit)
    (parseOutcome : Option (List Int)) : PipelineOutcome :=
  let selectedUrls := selectUrls allSearchResults params.count parseOutcome
  let metadataResults := selectedUrls.map fun url =>
    (extractMetadataOrchestrator url CONFIG.metadataProviders CONFIG
      (env.metaCall url)).head?
  let validMetadata := metadataResults.filterMap id
  if validMetadata.length = 0 then
    failWith "Failed to extract metadata for any products"
  else
    let specificGiftsToInsert := validMetadata.map (toGiftRow params)
    match env.insertOutcome with
    | Except.error e => failWith ("Failed to save specific gift ideas: " ++ e)
    | Except.ok _ =>
      { updates := [{ status := some JobStatus.in_progress },
                    { status := some JobStatus.completed,
                      result := some { generalGiftIdea := generalIdea,
                                       specificGifts := specificGiftsToInsert,
                                       count := specificGiftsToInsert.length } }]
        persisted := specificGiftsToInsert }

/-- `processProductGeneration` (lines 653-969) as a function of its
parameters and effect oracles: issue `in_progress`, fetch the idea, extract
product names, fan out purchase-URL searches per name and flatten with
product-name annotation (lines 715-747), run URL selection, then
`finishGeneration`.  Every thrown message lands in the outer catch as a
`failed` update. -/
def processProductGeneration (params : GenerationParams) (env : Env) :
    PipelineOutcome :=
  match env.fetchIdea with
  | none => failWith "General gift idea not found"
  | some generalIdea =>
    match extractProductNamesFromIdea params.count env.nameSearch env.nameLLM with
    | (Except.error e, _) => failWith e
    | (Except.ok productNames, _) =>
      if productNames.length = 0 then
        failWith ("Could not extract any product names from \"" ++
          generalIdea.ideaText ++ "\"")
      else
        let allSearchResults : List AnnotatedHit :=
          productNames.flatMap fun productName =>
            ((searchProductOrchestrator CONFIG.searchProviders
                (env.urlSearch productName)).flatMap fun r => r.results).map
              fun r => { hit := r, productName := productName }
        if allSearchResults.length = 0 then
          failWith "Could not find purchase URLs for the extracted products"
        else
          match env.selectLLM with
          | SelectLLMOutcome.threw e => failWith e
          | SelectLLMOutcome.noContent => failWith "LLM failed to select URLs"
          | SelectLLMOutcome.unparseable =>
              finishGeneration params env generalIdea allSearchResults none
          | SelectLLMOutcome.parsedIdx indices =>
              finishGeneration params env generalIdea allSearchResults
                (some indices)

/-- The status history a job written by one pipeline run passes through:
`createJob("pending")` at submission (line 1042) followed by the statuses of
the pipeline's updates. -/
def jobStatusTrace (params : GenerationParams) (env : Env) : List JobStatus :=
  JobStatus.pending ::
    (processProductGeneration params env).updates.filterMap JobUpdate.status

/-! Concrete data used to evaluate the definitions on closed inputs. -/

/-- A concrete search hit for a given product name. -/
def wHit (productName : String) : SearchResult :=
  { title := productName, url := "https://shop.example/" ++ productName }

/-- A concrete successful metadata record for a given URL. -/
def wMeta (url : String) : ProductMetadata :=
  { name := "Product at " ++ url
    price := { amount := some 2999, currency := some "USD" }
    imageUrls := ["https://img.example/1.jpg"]
    description := "A product"
    productUrl := url }

/-- Concrete pipeline parameters requesting 3 products. -/
def wParams : GenerationParams :=
  { userId := "u1", personId := "p1", generalGiftIdeaId := "g1", count := 3 }

/-- Concrete gift-idea row. -/
def wIdea : GeneralIdea := { id := "g1", ideaText := "fitness gear" }

/-- An environment in which name extraction and search succeed with three
products, URL selection picks all three hits, and the metadata provider
throws for every URL. -/
def wEnvAllFail : Env :=
  { fetchIdea := some wIdea
    nameSearch := Except.ok [wHit "pool"]
    nameLLM := NameLLMOutcome.parsed ["n1", "n2", "n3"]
    urlSearch := fun productName _ => Except.ok [wHit productName]
    selectLLM := SelectLLMOutcome.parsedIdx [1, 2, 3]
    metaCall := fun _ _ => Except.error "provider down"
    insertOutcome := Except.ok ()
    notifyOutcome := Except.ok () }

/-- Same environment except the metadata provider throws for exactly one of
the three selected URLs and succeeds for the other two. -/
def wEnvOneFail : Env :=
  { wEnvAllFail with
    metaCall := fun url _ =>
      if url == "https://shop.example/n2" then Except.error "provider down"
      else Except.ok (wMeta url) }

/-- Fully successful environment. -/
def wEnvOK : Env :=
  { wEnvAllFail with metaCall := fun url _ => Except.ok (wMeta url) }

/-- Search-provider oracle where `exa` throws and `parallel_web` returns one
hit. -/
def wSearchCall : SearchProvider → Except String (List SearchResult) :=
  fun q =>
    match q with
    | SearchProvider.exa => Except.error "boom"
    | _ => Except.ok [wHit "n1"]

/-- Variant of `wSearchCall` where `exa` instead succeeds with no hits. -/
def wSearchCall2 : SearchProvider → Except String (List SearchResult) :=
  fun q =>
    match q with
    | SearchProvider.exa => Except.ok []
    | _ => Except.ok [wHit "n1"]

/-- Metadata-provider oracle that always throws. -/
def wMetaCallDown : MetadataProvider → Except String ProductMetadata :=
  fun _ => Except.error "down"

/-- The routed-mode configuration: the source `CONFIG` with
`useUrlRouting: true`. -/
def routedConfig : Config := { CONFIG with useUrlRouting := true }

/-- A concrete registry job used to evaluate the reaper. -/
def wJob : Job Unit :=
  { id := "j1", status := JobStatus.completed, createdAt := 1000,
    updatedAt := 1000 }

/-- The insert row the fully successful environment produces for one
product name. -/
def wRowOK (productName : String) : GiftRow :=
  toGiftRow wParams
    { source := MetadataProvider.parallel_web,
      metadata := wMeta ("https://shop.example/" ++ productName) }

/-- The completed-job result payload of the fully successful environment. -/
def wResOK : JobResult :=
  { generalGiftIdea := wIdea
    specificGifts := [wRowOK "n1", wRowOK "n2", wRowOK "n3"]
    count := 3 }

/-- The completed-job update of the fully successful environment. -/
def wUpdOK : JobUpdate :=
  { status := some JobStatus.completed, result := some wResOK }

/-! Helper lemmas. -/

theorem filter_self_idem {α : Type} (p : α → Bool) (l : List α) :
    (l.filter p).filter p = l.filter p := by
  induction l with
  | nil => rfl
  | cons a t ih =>
    by_cases h : p a
    · simp [List.filter_cons, h, ih]
    · simp [List.filter_cons, h, ih]

/-! Claim theorems. -/

/-- Claim C6: product name extraction given an empty search-result pool returns an
empty list and performs zero completion-capability invocations, whatever the
requested count and whatever the completion oracle would have answered. -/
theorem extractProductNames_emptyPool (count : Nat) (llm : NameLLMOutcome) :
    extractProductNamesFromIdea count (Except.ok []) llm = (Except.ok [], 0) :=
  rfl

/-- Counterexample to claim C8: with a non-empty pool, requested count 2 and a parsed
response of three names, the step returns only the first two names — the
parsed list is cut down to `count`, refuting "the step does not cut a longer
parsed list down to N". -/
theorem extractProductNames_truncates_cx :
    extractProductNamesFromIdea 2 (Except.ok [wHit "x"])
        (NameLLMOutcome.parsed ["a", "b", "c"]) = (Except.ok ["a", "b"], 1) ∧
      (Except.ok ["a", "b"] : Except String (List String)) ≠
        Except.ok ["a", "b", "c"] := by
  decide

/-- Claim C8 as amended: no padding is performed — the step returns
`products.take count` (the source's `slice(0, count)`), so when fewer than
`count` names are parsed all of them are returned unchanged, and a longer
parsed list is truncated to the first `count`. -/
theorem extractProductNames_no_padding (count : Nat)
    (pool : List SearchResult) (products : List String)
    (hpool : pool.length ≠ 0) :
    extractProductNamesFromIdea count (Except.ok pool)
        (NameLLMOutcome.parsed products) =
      (Except.ok (products.take count), 1) ∧
    (products.take count).length = min count products.length ∧
    (products.length ≤ count → products.take count = products) := by
  refine ⟨?_, List.length_take .., fun h => List.take_of_length_le h⟩
  unfold extractProductNamesFromIdea
  simp [hpool]

/-- Witness for the amended claim C8, at count 2 with three parsed names. -/
theorem extractProductNames_no_padding_witness :
    extractProductNamesFromIdea 2 (Except.ok [wHit "x"])
        (NameLLMOutcome.parsed ["a", "b", "c"]) = (Except.ok ["a", "b"], 1) ∧
      (["a", "b", "c"].take 2).length = min 2 3 := by
  have h := extractProductNames_no_padding 2 [wHit "x"] ["a", "b", "c"]
    (by decide)
  exact ⟨h.1, by decide⟩

/-- Claim C5: URL selection with an unparseable completion response falls back to
the first `min count hits.length` hits in input order, and in-parse indices
out of the range `1..hits.length` are discarded (selecting with a parsed
index list gives the same URLs as selecting with that list pre-filtered to
the in-range indices). -/
theorem selectUrls_malformed_fallback (hits : List AnnotatedHit)
    (count : Nat) (indices : List Int) :
    selectUrls hits count none =
      (hits.take (min count hits.length)).map (fun h => h.hit.url) ∧
    selectUrls hits count (some indices) =
      selectUrls hits count (some (indices.filter fun idx =>
        decide (1 ≤ idx) && decide (idx ≤ (hits.length : Int)))) := by
  constructor
  · have hn : min count hits.length ≤ hits.length := Nat.min_le_right _ _
    simp only [selectUrls]
    set n := min count hits.length with hdef
    have hfil : ∀ a ∈ (List.range n).map (fun i => Int.ofNat (i + 1)),
        (decide (1 ≤ a) && decide (a ≤ (hits.length : Int))) = true := by
      intro a ha
      simp only [List.mem_map, List.mem_range] at ha
      obtain ⟨i, hi, rfl⟩ := ha
      simp only [Bool.and_eq_true, decide_eq_true_eq]
      simp only [Int.ofNat_eq_natCast]
      constructor <;> omega
    rw [List.filter_eq_self.mpr hfil]
    have hlen : ((List.range n).map (fun i => Int.ofNat (i + 1))).length = n := by
      simp
    rw [List.take_of_length_le (le_of_eq hlen), List.map_map]
    apply List.ext_getElem
    · simp [Nat.min_eq_left hn]
    · intro i h1 h2
      simp only [List.getElem_map, List.getElem_range, Function.comp_apply,
        List.getElem_take]
      have hi : i < n := by simpa using h1
      have hi2 : i < hits.length := lt_of_lt_of_le hi hn
      have hidx : ((Int.ofNat (i + 1)) - 1).toNat = i := by
        simp only [Int.ofNat_eq_natCast]
        omega
      rw [hidx, List.getElem?_eq_getElem hi2]
  · simp only [selectUrls]
    rw [filter_self_idem]

/-- Claim C4: for every query oracle and provider list of length N the
search fan-out returns exactly N entries, entry j being the tagged entry of
provider j; when provider `p` (at position k) throws `e`, its entry carries
an empty result list and the error message; and replacing provider p's
behaviour (oracle `call2` agrees with `call` everywhere except p) leaves
every other provider's entry unchanged. -/
theorem fanOut_isolation (providers : List SearchProvider)
    (call call2 : SearchProvider → Except String (List SearchResult))
    (k : Nat) (p : SearchProvider) (e : String)
    (hk : providers[k]? = some p)
    (he : call p = Except.error e)
    (hagree : ∀ q, q ≠ p → call2 q = call q) :
    (searchProductOrchestrator providers call).length = providers.length ∧
    (∀ (j : Nat) (q : SearchProvider), providers[j]? = some q →
      (searchProductOrchestrator providers call)[j]? =
        some (searchEntry call q)) ∧
    (∀ q, (searchEntry call q).source = q) ∧
    searchEntry call p = { source := p, results := [], error := some e } ∧
    (searchProductOrchestrator providers call)[k]? =
      some { source := p, results := [], error := some e } ∧
    (∀ (j : Nat) (q : SearchProvider), providers[j]? = some q → q ≠ p →
      (searchProductOrchestrator providers call2)[j]? =
        (searchProductOrchestrator providers call)[j]?) := by
  have hentry : searchEntry call p =
      { source := p, results := [], error := some e } := by
    unfold searchEntry
    rw [he]
  refine ⟨?_, ?_, ?_, hentry, ?_, ?_⟩
  · simp [searchProductOrchestrator]
  · intro j q hj
    simp [searchProductOrchestrator, List.getElem?_map, hj]
  · intro q
    unfold searchEntry
    cases call q <;> rfl
  · simp [searchProductOrchestrator, List.getElem?_map, hk, hentry]
  · intro j q hj hq
    have hsame : searchEntry call2 q = searchEntry call q := by
      unfold searchEntry
      rw [hagree q hq]
    simp only [searchProductOrchestrator, List.getElem?_map, hj,
      Option.map_some', hsame]

/-- Witness for C4: two providers, `exa` throwing `"boom"`: the fan-out has
two entries, `exa`'s entry is the empty-result error entry, and changing
`exa`'s behaviour leaves `parallel_web`'s entry untouched. -/
theorem fanOut_isolation_witness :
    (searchProductOrchestrator [SearchProvider.exa, SearchProvider.parallel_web]
        wSearchCall).length = 2 ∧
    (searchProductOrchestrator [SearchProvider.exa, SearchProvider.parallel_web]
        wSearchCall)[0]? =
      some { source := SearchProvider.exa, results := [], error := some "boom" } ∧
    (searchProductOrchestrator [SearchProvider.exa, SearchProvider.parallel_web]
        wSearchCall2)[1]? =
      (searchProductOrchestrator [SearchProvider.exa, SearchProvider.parallel_web]
        wSearchCall)[1]? := by
  have hagree : ∀ q, q ≠ SearchProvider.exa → wSearchCall2 q = wSearchCall q := by
    intro q hq
    cases q
    · exact absurd rfl hq
    · rfl
    · rfl
  have h := fanOut_isolation [SearchProvider.exa, SearchProvider.parallel_web]
    wSearchCall wSearchCall2 0 SearchProvider.exa "boom" rfl rfl hagree
  exact ⟨h.1, h.2.2.2.2.1,
    h.2.2.2.2.2 1 SearchProvider.parallel_web rfl (by decide)⟩

/-- Claim C3: in routed mode the metadata orchestrator always returns a
single entry whose source is `routeProvider url` — a function of the URL
alone, so the selection is identical across repeated invocations and
independent of the provider list and of the providers' behaviour; when the
selected provider fails, the single entry is the error sentinel tagged with
that same provider (no fallback to another provider), and when it succeeds
the entry is its metadata. -/
theorem routedMode_single_provider (url : String)
    (providers : List MetadataProvider) (cfg : Config)
    (hcfg : cfg.useUrlRouting = true)
    (call : MetadataProvider → Except String ProductMetadata) :
    ((extractMetadataOrchestrator url providers cfg call).map
        MetadataServiceResult.source = [routeProvider url]) ∧
    (∀ e, call (routeProvider url) = Except.error e →
      extractMetadataOrchestrator url providers cfg call =
        [{ source := routeProvider url, metadata := errorSentinel url e }]) ∧
    (∀ metadata, call (routeProvider url) = Except.ok metadata →
      extractMetadataOrchestrator url providers cfg call =
        [{ source := routeProvider url, metadata := metadata }]) := by
  cases hAmz : isAmazonUrl url
  · refine ⟨?_, ?_, ?_⟩
    · simp only [extractMetadataOrchestrator, hcfg, hAmz, if_true, if_false,
        Bool.false_eq_true, routeProvider]
      cases hc : call MetadataProvider.exa_contents <;> simp [hc]
    · intro e he
      simp only [routeProvider, hAmz, Bool.false_eq_true, if_false] at he ⊢
      simp only [extractMetadataOrchestrator, hcfg, hAmz, Bool.false_eq_true,
        if_false, if_true, he]
    · intro m hm
      simp only [routeProvider, hAmz, Bool.false_eq_true, if_false] at hm ⊢
      simp only [extractMetadataOrchestrator, hcfg, hAmz, Bool.false_eq_true,
        if_false, if_true, hm]
  · refine ⟨?_, ?_, ?_⟩
    · simp only [extractMetadataOrchestrator, hcfg, hAmz, if_true, routeProvider]
      cases hc : call MetadataProvider.apify_amazon <;> simp [hc]
    · intro e he
      simp only [routeProvider, hAmz, if_true] at he ⊢
      simp only [extractMetadataOrchestrator, hcfg, hAmz, if_true, he]
    · intro m hm
      simp only [routeProvider, hAmz, if_true] at hm ⊢
      simp only [extractMetadataOrchestrator, hcfg, hAmz, if_true, hm]

/-- Witness for C3: an Amazon URL with an always-failing provider oracle in
routed mode selects `apify_amazon` and returns the single sentinel tagged
with it. -/
theorem routedMode_witness :
    ((extractMetadataOrchestrator "https://www.amazon.com/dp/B00X"
        [MetadataProvider.parallel_web] routedConfig wMetaCallDown).map
        MetadataServiceResult.source =
      [routeProvider "https://www.amazon.com/dp/B00X"]) ∧
    extractMetadataOrchestrator "https://www.amazon.com/dp/B00X"
        [MetadataProvider.parallel_web] routedConfig wMetaCallDown =
      [{ source := MetadataProvider.apify_amazon,
         metadata := errorSentinel "https://www.amazon.com/dp/B00X" "down" }] := by
  have h := routedMode_single_provider "https://www.amazon.com/dp/B00X"
    [MetadataProvider.parallel_web] routedConfig rfl wMetaCallDown
  refine ⟨h.1, ?_⟩
  have h2 := h.2.1 "down" rfl
  rw [h2]
  have hr : routeProvider "https://www.amazon.com/dp/B00X" =
      MetadataProvider.apify_amazon := by decide
  rw [hr]

theorem getJob_filter_of_nodup {α : Type} (q : Job α → Bool) (jobId : String)
    (jobs : List (Job α)) (hnodup : (jobs.map Job.id).Nodup)
    (j : Job α) (hfind : getJob jobs jobId = some j) :
    getJob (jobs.filter q) jobId = if q j then some j else none := by
  induction jobs with
  | nil => simp [getJob] at hfind
  | cons a t ih =>
    simp only [List.map_cons, List.nodup_cons] at hnodup
    obtain ⟨hnotin, hnodupt⟩ := hnodup
    by_cases hid : (a.id == jobId) = true
    · have hja : j = a := by
        simp only [getJob, List.find?_cons, hid] at hfind
        exact (Option.some_inj.mp hfind).symm
      subst hja
      have hjid : j.id = jobId := by simpa using hid
      by_cases hq : q j = true
      · rw [List.filter_cons_of_pos hq]
        simp only [getJob, List.find?_cons, hid, hq, if_true]
      · rw [List.filter_cons_of_neg hq]
        have hnone : getJob (t.filter q) jobId = none := by
          simp only [getJob]
          rw [List.find?_eq_none]
          intro x hx
          have hxt : x ∈ t := List.mem_of_mem_filter hx
          have hne : x.id ≠ jobId := by
            intro hEq
            apply hnotin
            rw [hjid, ← hEq]
            exact List.mem_map_of_mem Job.id hxt
          simp [hne]
        rw [hnone, if_neg hq]
    · have hidf : (a.id == jobId) = false := by simpa using hid
      have hfind2 : getJob t jobId = some j := by
        simpa only [getJob, List.find?_cons, hidf] using hfind
      have hrec := ih hnodupt hfind2
      by_cases hq : q a = true
      · rw [List.filter_cons_of_pos hq]
        simpa only [getJob, List.find?_cons, hidf] using hrec
      · rw [List.filter_cons_of_neg hq]
        exact hrec

/-- Claim C9: over a registry with distinct job ids, the reaper keeps
exactly the jobs whose age `now - createdAt` is at most `maxAge` — with no
regard to their status — and leaves them unchanged; consequently a job still
retrievable by `get` stays retrievable while `now ≤ createdAt + maxAge` and
is gone from `get` after a reaper run once `createdAt + maxAge < now`. -/
theorem reaper_retention {α : Type} (now maxAge : Nat) (jobs : List (Job α))
    (hnodup : (jobs.map Job.id).Nodup) :
    (∀ j, j ∈ (cleanupOldJobs now maxAge jobs).1 ↔
        (j ∈ jobs ∧ now - j.createdAt ≤ maxAge)) ∧
    (∀ (jobId : String) (j : Job α), getJob jobs jobId = some j →
        (now ≤ j.createdAt + maxAge →
          getJob (cleanupOldJobs now maxAge jobs).1 jobId = some j) ∧
        (j.createdAt + maxAge < now →
          getJob (cleanupOldJobs now maxAge jobs).1 jobId = none)) := by
  constructor
  · intro j
    simp [cleanupOldJobs, List.mem_filter, Nat.not_lt]
  · intro jobId j hfind
    have hq := getJob_filter_of_nodup
      (fun j => !decide (now - j.createdAt > maxAge)) jobId jobs hnodup j hfind
    constructor
    · intro hle
      show getJob (jobs.filter fun j => !decide (now - j.createdAt > maxAge))
        jobId = some j
      rw [hq]
      have hb : (!decide (now - j.createdAt > maxAge)) = true := by
        simp only [Bool.not_eq_true', decide_eq_false_iff_not, gt_iff_lt,
          Nat.not_lt]
        omega
      simp [hb]
    · intro hlt
      show getJob (jobs.filter fun j => !decide (now - j.createdAt > maxAge))
        jobId = none
      rw [hq]
      have hb : (!decide (now - j.createdAt > maxAge)) = false := by
        simp only [Bool.not_eq_false', decide_eq_true_eq, gt_iff_lt]
        omega
      simp [hb]

/-- Witness for C9: a completed job created at 1000 with `maxAge` 100 is
still retrievable when the reaper runs at 1100 and gone when it runs at
1101. -/
theorem reaper_retention_witness :
    getJob (cleanupOldJobs 1100 100 [wJob]).1 "j1" = some wJob ∧
    getJob (cleanupOldJobs 1101 100 [wJob]).1 "j1" = none := by
  have h1 := (reaper_retention 1100 100 [wJob] (by simp)).2 "j1" wJob (by decide)
  have h2 := (reaper_retention 1101 100 [wJob] (by simp)).2 "j1" wJob (by decide)
  exact ⟨h1.1 (by decide), h2.2 (by decide)⟩

theorem failWith_statuses (msg : String) :
    (failWith msg).updates.filterMap JobUpdate.status =
      [JobStatus.in_progress, JobStatus.failed] := rfl

theorem finishGeneration_statuses (params : GenerationParams) (env : Env)
    (gi : GeneralIdea) (hits : List AnnotatedHit) (po : Option (List Int)) :
    (finishGeneration params env gi hits po).updates.filterMap JobUpdate.status =
        [JobStatus.in_progress, JobStatus.completed] ∨
    (finishGeneration params env gi hits po).updates.filterMap JobUpdate.status =
        [JobStatus.in_progress, JobStatus.failed] := by
  simp only [finishGeneration]
  split
  · right; exact failWith_statuses _
  · split
    · right; exact failWith_statuses _
    · left; rfl

/-- Claim C7: whatever the effect oracles do, the status history a job
passes through is exactly `pending, in_progress, completed` or
`pending, in_progress, failed` (the spec's `running` is the code's
`in_progress`): the sequence is a prefix of the claimed chain, no status
recurs, and no update follows a terminal status. -/
theorem job_status_monotone (params : GenerationParams) (env : Env) :
    jobStatusTrace params env =
        [JobStatus.pending, JobStatus.in_progress, JobStatus.completed] ∨
    jobStatusTrace params env =
        [JobStatus.pending, JobStatus.in_progress, JobStatus.failed] := by
  unfold jobStatusTrace
  simp only [processProductGeneration]
  split
  · right; rfl
  · split
    · right; rfl
    · split
      · right; rfl
      · split
        · right; rfl
        · split
          · right; rfl
          · right; rfl
          · rcases finishGeneration_statuses params env _ _ none with h | h
            · left; rw [h]
            · right; rw [h]
          · rcases finishGeneration_statuses params env _ _ _ with h | h
            · left; rw [h]
            · right; rw [h]

theorem selectUrls_length_le (hits : List AnnotatedHit) (count : Nat)
    (po : Option (List Int)) : (selectUrls hits count po).length ≤ count := by
  simp only [selectUrls]
  rw [List.length_map]
  exact le_trans (List.length_take_le _ _) (Nat.min_le_left _ _)

theorem failWith_bound (msg : String) (n : Nat) :
    (failWith msg).persisted.length ≤ n ∧
    (∀ upd ∈ (failWith msg).updates, ∀ res, upd.result = some res →
      res.count = res.specificGifts.length ∧
      res.specificGifts = (failWith msg).persisted ∧ res.count ≤ n) := by
  constructor
  · simp [failWith]
  · intro upd hupd res hres
    simp only [failWith, List.mem_cons, List.not_mem_nil, or_false] at hupd
    rcases hupd with rfl | rfl <;> simp at hres

theorem finishGeneration_bound (params : GenerationParams) (env : Env)
    (gi : GeneralIdea) (hits : List AnnotatedHit) (po : Option (List Int)) :
    (finishGeneration params env gi hits po).persisted.length ≤ params.count ∧
    (∀ upd ∈ (finishGeneration params env gi hits po).updates, ∀ res,
      upd.result = some res →
        res.count = res.specificGifts.length ∧
        res.specificGifts = (finishGeneration params env gi hits po).persisted ∧
        res.count ≤ params.count) := by
  have hsel := selectUrls_length_le hits params.count po
  have hvalid :
      (((selectUrls hits params.count po).map fun url =>
          (extractMetadataOrchestrator url CONFIG.metadataProviders CONFIG
            (env.metaCall url)).head?).filterMap id).length ≤ params.count := by
    refine le_trans (le_trans (List.length_filterMap_le _ _) ?_) hsel
    rw [List.length_map]
  simp only [finishGeneration]
  split
  · exact failWith_bound _ _
  · split
    · exact failWith_bound _ _
    · constructor
      · rw [List.length_map]
        exact hvalid
      · intro upd hupd res hres
        simp only [List.mem_cons, List.not_mem_nil, or_false] at hupd
        rcases hupd with rfl | rfl
        · simp at hres
        · simp only [Option.some_inj] at hres
          subst hres
          refine ⟨rfl, rfl, ?_⟩
          rw [List.length_map]
          exact hvalid

/-- Claim C10: whatever the effect oracles do, the number of persisted rows
never exceeds the requested `count`, and any result payload the pipeline
attaches to an update reports `count` equal to the number of rows it
persisted, which is bounded by the requested `count` as well. -/
theorem persisted_and_count_bounded (params : GenerationParams) (env : Env) :
    (processProductGeneration params env).persisted.length ≤ params.count ∧
    (∀ upd ∈ (processProductGeneration params env).updates, ∀ res,
      upd.result = some res →
        res.count = res.specificGifts.length ∧
        res.specificGifts = (processProductGeneration params env).persisted ∧
        res.count ≤ params.count) := by
  simp only [processProductGeneration]
  split
  · exact failWith_bound _ _
  · split
    · exact failWith_bound _ _
    · split
      · exact failWith_bound _ _
      · split
        · exact failWith_bound _ _
        · split
          · exact failWith_bound _ _
          · exact failWith_bound _ _
          · exact finishGeneration_bound params env _ _ none
          · exact finishGeneration_bound params env _ _ _

/-- Witness for C10: the fully successful three-product run persists at most
3 rows, and its completed update's result reports a count of at most 3. -/
theorem persisted_count_witness :
    (processProductGeneration wParams wEnvOK).persisted.length ≤ 3 ∧
    wResOK.count ≤ 3 := by
  have h := persisted_and_count_bounded wParams wEnvOK
  exact ⟨h.1, (h.2 wUpdOK (by decide) wResOK (by decide)).2.2⟩

/-- Claim C1 evaluated at its failing input: when the metadata provider
throws for every one of the three selected URLs, the pipeline as written
does not fail the job — the orchestrator converts each failure into an
error-sentinel record, the `m !== null` filter keeps the sentinels, and the
job completes with all three sentinel rows (name `"Error"`) persisted,
instead of transitioning to `failed` with zero rows. -/
theorem allExtractionFail_completes :
    (processProductGeneration wParams wEnvAllFail).updates.filterMap
        JobUpdate.status = [JobStatus.in_progress, JobStatus.completed] ∧
    (processProductGeneration wParams wEnvAllFail).persisted.length = 3 ∧
    (∀ row ∈ (processProductGeneration wParams wEnvAllFail).persisted,
      row.name = "Error") := by
  decide

/-- Claim C2 evaluated at its failing input: when the metadata provider
throws for exactly one of the three selected URLs, the job completes but the
failed URL's error-sentinel record is not excluded from persistence — three
rows are inserted, one named `"Error"`, and the job result's count is 3, not
the 2 successful extractions the claim requires. -/
theorem oneFailure_persists_sentinel :
    (processProductGeneration wParams wEnvOneFail).updates.filterMap
        JobUpdate.status = [JobStatus.in_progress, JobStatus.completed] ∧
    (processProductGeneration wParams wEnvOneFail).persisted.length = 3 ∧
    (∃ row ∈ (processProductGeneration wParams wEnvOneFail).persisted,
      row.name = "Error") ∧
    (∀ res ∈ (processProductGeneration wParams wEnvOneFail).updates.filterMap
        JobUpdate.result, res.count = 3) := by
  decide

end Cherish
